import Mathlib

/-!
Verification of the zpool-status-exporter core: a shallow embedding of the
zpool-status text parser (src/zfs.rs) and the Prometheus metric formatter
(src/fmt.rs, src/fmt/macros.rs, src/fmt/meta.rs), with theorems checking the
natural-language specification against it.

Conventions of the embedding:
- Rust machine integers are modelled as Nat with explicit range checks where
  the code checks them (u32 parsing).
- Timestamps (jiff::Zoned / time::OffsetDateTime) are modelled as rational
  numbers of seconds; the external jiff strtime parser combined with timezone
  resolution is a parameter of the context (field of AppContext).
- Fallible Rust functions returning Result are modelled with Except.
- The diagnostic side channel (eprintln) of the infallible enum mappings is
  modelled by returning the list of emitted lines alongside the value.
- String helpers (lines, trim, split_once, split_whitespace) are re-implemented
  on character lists to mirror the Rust std semantics (restricted to ASCII
  whitespace, which suffices for all inputs considered here).
-/

/-- Character-level whitespace test mirroring the ASCII fragment of Rust
char::is_whitespace (the only whitespace that occurs in zpool output). -/
def isWsChar (c : Char) : Bool :=
  c = ' ' || c = '\t' || c = '\n' || c = '\r'

/-- Mirrors Rust str::trim (ASCII fragment): drop whitespace from both ends. -/
def rustTrimChars (l : List Char) : List Char :=
  ((l.dropWhile isWsChar).reverse.dropWhile isWsChar).reverse

/-- String wrapper for rustTrimChars. -/
def rustTrim (s : String) : String :=
  String.mk (rustTrimChars s.data)

/-- Mirrors Rust str::starts_with for a string pattern. -/
def startsWithStr (s pre : String) : Bool :=
  pre.data.isPrefixOf s.data

/-- Split a character list at the first occurrence of the separator,
mirroring Rust str::split_once: the separator is removed. -/
def splitOnceChars (sep : List Char) : List Char → Option (List Char × List Char)
  | [] => if sep.isPrefixOf ([] : List Char) then some ([], []) else none
  | c :: rest =>
    if sep.isPrefixOf (c :: rest) then some ([], (c :: rest).drop sep.length)
    else match splitOnceChars sep rest with
      | some (a, b) => some (c :: a, b)
      | none => none

/-- String wrapper for splitOnceChars (Rust str::split_once). -/
def splitOnceStr (s sep : String) : Option (String × String) :=
  (splitOnceChars sep.data s.data).map fun p => (String.mk p.1, String.mk p.2)

/-- Mirrors Rust str::split_whitespace on character lists: maximal runs of
non-whitespace characters, empties skipped; cur is the token being built. -/
def splitWsAux (cur : List Char) : List Char → List (List Char)
  | [] => if cur = [] then [] else [cur]
  | c :: rest =>
    if isWsChar c then
      if cur = [] then splitWsAux [] rest else cur :: splitWsAux [] rest
    else splitWsAux (cur ++ [c]) rest

/-- String-level split_whitespace. -/
def splitWs (s : String) : List String :=
  (splitWsAux [] s.data).map String.mk

/-- Count the leading space characters, mirroring the depth loop in
DeviceMetrics::from_str (src/zfs.rs). -/
def countLeadingSpaces : List Char → Nat
  | [] => 0
  | c :: rest => if c = ' ' then countLeadingSpaces rest + 1 else 0

/-- First line of a multi-line string: the part before the first newline
(content.split_once in parse_scan_content). -/
def firstLine (s : String) : String :=
  match splitOnceStr s "\n" with
  | some p => p.1
  | none => s

/-- Strip one trailing carriage return, as Rust str::lines does per line. -/
def stripCr (l : List Char) : List Char :=
  match l.getLast? with
  | some '\r' => l.dropLast
  | _ => l

/-- Accumulator-based splitter for rustLines: emits the current line at a
newline or at the end; a trailing newline emits no empty final line. -/
def rustLinesAux (acc : List Char) : List Char → List String
  | [] => [String.mk (stripCr acc)]
  | '\n' :: rest =>
    String.mk (stripCr acc) ::
      (match rest with
       | [] => []
       | _ => rustLinesAux [] rest)
  | c :: rest => rustLinesAux (acc ++ [c]) rest

/-- Mirrors Rust str::lines: split on newline, no final empty line for a
trailing newline, one trailing carriage return stripped per line. -/
def rustLines (s : String) : List String :=
  match s.data with
  | [] => []
  | l => rustLinesAux [] l

/-- Pair each list element with its 0-based index starting at n. -/
def enumFrom (n : Nat) : List String → List (Nat × String)
  | [] => []
  | l :: rest => (n, l) :: enumFrom (n + 1) rest

/-- Hex digits (lowercase) of a natural number, as used by the Rust
Debug escape for control characters. -/
def hexChars (n : Nat) : List Char :=
  Nat.toDigits 16 n

/-- Escape of a single character inside a Rust Debug-formatted string
literal. Exact for ASCII; characters above 0x7f are kept verbatim, which
matches Rust for printable text. -/
def escapeDebugChar (c : Char) : List Char :=
  if c = '\\' then ['\\', '\\']
  else if c = '"' then ['\\', '"']
  else if c = '\n' then ['\\', 'n']
  else if c = '\t' then ['\\', 't']
  else if c = '\r' then ['\\', 'r']
  else if c = '\x00' then ['\\', '0']
  else if c.toNat < 32 || c.toNat == 127 then
    '\\' :: 'u' :: '\x7b' :: hexChars c.toNat ++ ['\x7d']
  else [c]

/-- Rust Debug rendering of a string: escaped content between quotes,
as produced by the format specifier for strings in eprintln. -/
def debugQuote (s : String) : String :=
  String.mk ('"' :: (s.data.map escapeDebugChar).flatten ++ ['"'])

/-- Device status enumeration from src/zfs.rs. -/
inductive DeviceStatus where
  | Unrecognized
  | Online
  | Offline
  | Split
  | Degraded
  | Faulted
  | Suspended
  | Removed
  | Unavail
  deriving DecidableEq, Repr

/-- Pool status description enumeration from src/zfs.rs. -/
inductive PoolStatusDescription where
  | Unrecognized
  | FeaturesAvailable
  | SufficientReplicasForMissing
  | DeviceRemoved
  | DataCorruption
  deriving DecidableEq, Repr

/-- Scan status enumeration from src/zfs.rs. -/
inductive ScanStatus where
  | Unrecognized
  | ScrubRepaired
  | Resilvered
  | ScrubInProgress
  deriving DecidableEq, Repr

/-- Error status enumeration from src/zfs.rs. -/
inductive ErrorStatus where
  | Unrecognized
  | Ok
  | DataErrors
  deriving DecidableEq, Repr

/-- The From(&str) conversion for DeviceStatus together with the diagnostic
lines it writes to the side channel (the eprintln in src/zfs.rs). -/
def DeviceStatus.fromStrD (s : String) : DeviceStatus × List String :=
  if s = "ONLINE" then (.Online, [])
  else if s = "OFFLINE" then (.Offline, [])
  else if s = "SPLIT" then (.Split, [])
  else if s = "DEGRADED" then (.Degraded, [])
  else if s = "FAULTED" then (.Faulted, [])
  else if s = "SUSPENDED" then (.Suspended, [])
  else if s = "REMOVED" then (.Removed, [])
  else if s = "UNAVAIL" then (.Unavail, [])
  else (.Unrecognized, ["Unrecognized DeviceStatus: " ++ debugQuote s])

/-- Value part of the DeviceStatus conversion. -/
def DeviceStatus.fromStr (s : String) : DeviceStatus :=
  (DeviceStatus.fromStrD s).1

/-- First narrative constant for SufficientReplicasForMissing (src/zfs.rs). -/
def narrativeSufficientReplicas : String :=
  "One or more devices could not be used because the label is missing or\ninvalid.  Sufficient replicas exist for the pool to continue\nfunctioning in a degraded state"

/-- Narrative constant for DataCorruption (src/zfs.rs). -/
def narrativeDataCorruption : String :=
  "One or more devices has experienced an error resulting in data\ncorruption.  Applications may be affected"

/-- First narrative constant for FeaturesAvailable (src/zfs.rs). -/
def narrativeFeaturesAvailable1 : String :=
  "Some supported and requested features are not enabled on the pool.\nThe pool can still be used, but some features are unavailable."

/-- Second narrative constant for FeaturesAvailable (src/zfs.rs). -/
def narrativeFeaturesAvailable2 : String :=
  "Some supported features are not enabled on the pool. The pool can\nstill be used, but some features are unavailable."

/-- Narrative constant for DeviceRemoved (src/zfs.rs). -/
def narrativeDeviceRemoved : String :=
  "One or more devices has been removed by the administrator.\nSufficient replicas exist for the pool to continue functioning in a\ndegraded state."

/-- The From(&str) conversion for PoolStatusDescription with its diagnostic
lines, mirroring the prefix matching in src/zfs.rs. -/
def PoolStatusDescription.fromStrD (s : String) : PoolStatusDescription × List String :=
  if startsWithStr s narrativeSufficientReplicas then (.SufficientReplicasForMissing, [])
  else if startsWithStr s narrativeDataCorruption then (.DataCorruption, [])
  else if startsWithStr s narrativeFeaturesAvailable1 || startsWithStr s narrativeFeaturesAvailable2 then
    (.FeaturesAvailable, [])
  else if startsWithStr s narrativeDeviceRemoved then (.DeviceRemoved, [])
  else (.Unrecognized, ["Unrecognized PoolStatusDescription: " ++ debugQuote s])

/-- Value part of the PoolStatusDescription conversion. -/
def PoolStatusDescription.fromStr (s : String) : PoolStatusDescription :=
  (PoolStatusDescription.fromStrD s).1

/-- The From(&str) conversion for ScanStatus with its diagnostic lines,
mirroring the prefix matching in src/zfs.rs. -/
def ScanStatus.fromStrD (s : String) : ScanStatus × List String :=
  if startsWithStr s "scrub repaired" then (.ScrubRepaired, [])
  else if startsWithStr s "resilvered" then (.Resilvered, [])
  else if startsWithStr s "scrub in progress" then (.ScrubInProgress, [])
  else (.Unrecognized, ["Unrecognized ScanStatus: " ++ debugQuote s])

/-- Value part of the ScanStatus conversion. -/
def ScanStatus.fromStr (s : String) : ScanStatus :=
  (ScanStatus.fromStrD s).1

/-- Everything after the first word, helper of the From(&str) conversion
for ErrorStatus (the split_once over a space with unwrap_or, src/zfs.rs). -/
def errorStatusRemainder (s : String) : String :=
  match splitOnceStr s " " with
  | some p => p.2
  | none => ""

/-- The From(&str) conversion for ErrorStatus, continued: prefix "No known
data errors" gives Ok, a remainder after the first word beginning with
"data errors" gives DataErrors, anything else Unrecognized. -/
def ErrorStatus.fromStrD (s : String) : ErrorStatus × List String :=
  if startsWithStr s "No known data errors" then (.Ok, [])
  else if startsWithStr (errorStatusRemainder s) "data errors" then (.DataErrors, [])
  else (.Unrecognized, ["Unrecognized ErrorStatus: " ++ debugQuote s])

/-- Value part of the ErrorStatus conversion. -/
def ErrorStatus.fromStr (s : String) : ErrorStatus :=
  (ErrorStatus.fromStrD s).1

/-- Numeric metrics for a device, from src/zfs.rs; the u32 counters are
Nats kept below 2^32 by the parser. -/
structure DeviceMetrics where
  depth : Nat
  name : String
  state : DeviceStatus
  errors_read : Nat
  errors_write : Nat
  errors_checksum : Nat
  deriving DecidableEq, Repr

/-- Error kinds of the device-row parser (src/zfs.rs, mod device_metrics).
InvalidCount keeps the offending cell; the ParseIntError cause is dropped. -/
inductive DeviceErrorKind where
  | MissingLeadingWhitespace
  | MissingName
  | MissingState
  | MissingReadErrorCount
  | MissingWriteErrorCount
  | MissingChecksumErrorCount
  | InvalidLeadingWhitespace
  | InvalidCount (cell : String)
  deriving DecidableEq, Repr

/-- Device-row parse error with the optional device name attached. -/
structure DeviceError where
  device_name : Option String
  kind : DeviceErrorKind
  deriving DecidableEq, Repr

/-- Drop an optional leading plus sign, as str::parse for unsigned
integers does in Rust. -/
def rustStripPlus (cs : List Char) : List Char :=
  match cs with
  | [] => []
  | c :: rest => if c = '+' then rest else c :: rest

/-- Value of a string of ASCII digits read in base 10. -/
def natOfDigits (cs : List Char) : Nat :=
  cs.foldl (fun acc c => acc * 10 + (c.toNat - 48)) 0

/-- Mirrors str::parse::<u32> in Rust: optional leading plus sign, one or
more ASCII digits, rejecting values of 2^32 or more (overflow). -/
def rustParseU32 (s : String) : Option Nat :=
  if rustStripPlus s.data = [] then none
  else if (rustStripPlus s.data).all Char.isDigit then
    if natOfDigits (rustStripPlus s.data) < 4294967296 then
      some (natOfDigits (rustStripPlus s.data))
    else none
  else none

/-- FromStr for DeviceMetrics (src/zfs.rs): one leading tab, spaces giving
depth in steps of two, then whitespace-separated name, state and the three
error counters. -/
def DeviceMetrics.from_str (line : String) : Except DeviceError DeviceMetrics :=
  match splitOnceStr line "\t" with
  | none => .error ⟨none, .MissingLeadingWhitespace⟩
  | some (beforeTab, rest) =>
    if beforeTab ≠ "" then .error ⟨none, .InvalidLeadingWhitespace⟩
    else
      match splitWsAux [] (rest.data.drop (countLeadingSpaces rest.data)) with
      | [] => .error ⟨none, .MissingName⟩
      | nameCs :: cells =>
        match cells with
        | [] => .error ⟨some (String.mk nameCs), .MissingState⟩
        | stateCs :: cells =>
          match cells with
          | [] => .error ⟨some (String.mk nameCs), .MissingReadErrorCount⟩
          | readCs :: cells =>
            match rustParseU32 (String.mk readCs) with
            | none => .error ⟨some (String.mk nameCs), .InvalidCount (String.mk readCs)⟩
            | some errors_read =>
              match cells with
              | [] => .error ⟨some (String.mk nameCs), .MissingWriteErrorCount⟩
              | writeCs :: cells =>
                match rustParseU32 (String.mk writeCs) with
                | none => .error ⟨some (String.mk nameCs), .InvalidCount (String.mk writeCs)⟩
                | some errors_write =>
                  match cells with
                  | [] => .error ⟨some (String.mk nameCs), .MissingChecksumErrorCount⟩
                  | checksumCs :: _ =>
                    match rustParseU32 (String.mk checksumCs) with
                    | none => .error ⟨some (String.mk nameCs), .InvalidCount (String.mk checksumCs)⟩
                    | some errors_checksum =>
                      .ok ⟨countLeadingSpaces rest.data / 2, String.mk nameCs,
                        DeviceStatus.fromStr (String.mk stateCs),
                        errors_read, errors_write, errors_checksum⟩

/-- Application context: the timezone-aware timestamp parser of src/lib.rs.
The field models the composition of the external jiff strtime parse with
format "%a %b %d %T %Y", BrokenDownTime::to_datetime and to_zoned against the
caller-supplied timezone; a resulting zoned instant is abstracted as rational
seconds since an arbitrary epoch, and a parse failure as none. -/
structure AppContext where
  parse_timestamp : String → Option ℚ

/-- Error kinds of the scan-content parser (src/zfs.rs, mod scan_content);
ParseTimestamp keeps the offending timestamp text, dropping the jiff cause. -/
inductive ScanErrorKind where
  | MissingTimestampSeparator
  | ParseTimestamp (timestamp : String)
  deriving DecidableEq, Repr

/-- Scan-content parser (AppContext::parse_scan_content in src/zfs.rs):
keep only the first line, split at " on " or else " since ", classify the
message and parse the timestamp. -/
def AppContext.parse_scan_content (ctx : AppContext) (content : String) :
    Except ScanErrorKind (ScanStatus × ℚ) :=
  let firstPart := firstLine content
  match (splitOnceStr firstPart " on ").orElse (fun _ => splitOnceStr firstPart " since ") with
  | none => .error .MissingTimestampSeparator
  | some (message, timestampStr) =>
    let scanStatus := ScanStatus.fromStr message
    match ctx.parse_timestamp timestampStr with
    | none => .error (.ParseTimestamp timestampStr)
    | some z => .ok (scanStatus, z)

/-- Pool record accumulated by the parser (src/zfs.rs). The scan timestamp
is a zoned instant modelled as rational seconds. -/
structure PoolMetrics where
  name : String
  state : Option DeviceStatus
  pool_status : Option PoolStatusDescription
  scan_status : Option (ScanStatus × ℚ)
  devices : List DeviceMetrics
  error : Option ErrorStatus
  deriving DecidableEq

/-- PoolMetrics::new in src/zfs.rs. -/
def PoolMetrics.new (name : String) : PoolMetrics :=
  ⟨name, none, none, none, [], none⟩

/-- Section states of the line driver (src/zfs.rs). -/
inductive ZpoolStatusSection where
  | Header
  | BlankBeforeDevices
  | Devices
  deriving DecidableEq, Repr

/-- Error kinds of the header record parser (src/zfs.rs, mod
metrics_line_header). DuplicateEntry drops the Debug rendering of the
previous value that the source stores as a string. -/
inductive HeaderErrorKind where
  | DuplicateEntry
  | ScanContent (err : ScanErrorKind)
  | ExpectedEmpty
  | UnknownLabel
  deriving DecidableEq, Repr

/-- Header record parse error with the label and content attached. -/
structure HeaderError where
  label : String
  content : String
  kind : HeaderErrorKind
  deriving DecidableEq, Repr

/-- PoolMetrics::add_line_header (src/zfs.rs): dispatch a labeled header
entry into the pool record; err_if_previous rejects duplicates. -/
def PoolMetrics.add_line_header (pool : PoolMetrics) (label content : String)
    (ctx : AppContext) : Except HeaderError (PoolMetrics × Option ZpoolStatusSection) :=
  match label with
  | "status" =>
    match pool.pool_status with
    | some _ => .error ⟨label, content, .DuplicateEntry⟩
    | none => .ok ({ pool with pool_status := some (PoolStatusDescription.fromStr content) }, none)
  | "state" =>
    match pool.state with
    | some _ => .error ⟨label, content, .DuplicateEntry⟩
    | none => .ok ({ pool with state := some (DeviceStatus.fromStr content) }, none)
  | "scan" =>
    match ctx.parse_scan_content content with
    | .error e => .error ⟨label, content, .ScanContent e⟩
    | .ok newScan =>
      match pool.scan_status with
      | some _ => .error ⟨label, content, .DuplicateEntry⟩
      | none => .ok ({ pool with scan_status := some newScan }, none)
  | "config" =>
    if content = "" then .ok (pool, some .BlankBeforeDevices)
    else .error ⟨label, content, .ExpectedEmpty⟩
  | "errors" =>
    match pool.error with
    | some _ => .error ⟨label, content, .DuplicateEntry⟩
    | none => .ok ({ pool with error := some (ErrorStatus.fromStr content) }, none)
  | "action" => .ok (pool, none)
  | "see" => .ok (pool, none)
  | _ => .error ⟨label, content, .UnknownLabel⟩

/-- Error kinds of the whole zpool-status parse (src/zfs.rs, mod main).
UnreachablePanic models the unreachable! hit when the Devices section is
active with no pool. -/
inductive ParseErrorKind where
  | MetricsLineHeader (err : HeaderError)
  | DeviceMetrics (err : DeviceError)
  | HeaderBeforePool (label : String)
  | NeedsZfsDeviceMounts
  | UnknownHeader
  | InvalidDeviceTableLabels
  | MissingDeviceTableLabels
  | MissingBlankForDevices
  | UnreachablePanic
  deriving DecidableEq, Repr

/-- Parse error carrying the raw offending line and its 1-indexed number. -/
structure ParseError where
  line : String
  line_number : Nat
  kind : ParseErrorKind
  deriving DecidableEq, Repr

/-- Greedy absorption of header continuations: while the next line starts
with a tab, strip the tab and append it to the current line after a newline
(the while-let over lines.peek in parse_zfs_metrics). -/
def collectCont (line : String) : List (Nat × String) → String × List (Nat × String)
  | [] => (line, [])
  | (i, next) :: rest =>
    if startsWithStr next "\t" then
      collectCont (line ++ "\n" ++ String.mk (next.data.drop 1)) rest
    else (line, (i, next) :: rest)

/-- Replace the last element of a list (pools.last_mut assignment). -/
def setLast (l : List PoolMetrics) (p : PoolMetrics) : List PoolMetrics :=
  l.dropLast ++ [p]

/-- One pass of the section driver of AppContext::parse_zfs_metrics
(src/zfs.rs), written with explicit fuel so that it evaluates by reduction;
the driver consumes at least one line per step, so fuel equal to the number
of lines is always enough and the fuel-exhausted fallback is unreachable
from parse_zfs_metrics. -/
def loopFuel (ctx : AppContext) : Nat → ZpoolStatusSection → List PoolMetrics →
    List (Nat × String) → Except ParseError (List PoolMetrics)
  | _, _, pools, [] => .ok pools
  | 0, _, pools, _ :: _ => .ok pools
  | fuel + 1, .Header, pools, (idx, rawLine) :: rest =>
    let cont := collectCont rawLine rest
    let line := cont.1
    let rest2 := cont.2
    match splitOnceStr line ":" with
    | some (labelRaw, contentRaw) =>
      let label := rustTrim labelRaw
      let content := rustTrim contentRaw
      if label = "pool" then
        loopFuel ctx fuel .Header (pools ++ [PoolMetrics.new content]) rest2
      else
        match pools.getLast? with
        | none => .error ⟨rawLine, idx + 1, .HeaderBeforePool label⟩
        | some pool =>
          match pool.add_line_header label content ctx with
          | .error e => .error ⟨rawLine, idx + 1, .MetricsLineHeader e⟩
          | .ok (pool2, nextSection) =>
            loopFuel ctx fuel (nextSection.getD .Header) (setLast pools pool2) rest2
    | none =>
      if rustTrim line = "" then loopFuel ctx fuel .Header pools rest2
      else if line = "no pools available" then loopFuel ctx fuel .Header pools rest2
      else if startsWithStr line "/dev/zfs and /proc/self/mounts" then
        .error ⟨rawLine, idx + 1, .NeedsZfsDeviceMounts⟩
      else .error ⟨rawLine, idx + 1, .UnknownHeader⟩
  | fuel + 1, .BlankBeforeDevices, pools, (idx, rawLine) :: rest =>
    if rustTrim rawLine = "" then
      match rest with
      | (_, next) :: rest2 =>
        if startsWithStr next "\tNAME " then loopFuel ctx fuel .Devices pools rest2
        else .error ⟨rawLine, idx + 1, .InvalidDeviceTableLabels⟩
      | [] => .error ⟨rawLine, idx + 1, .MissingDeviceTableLabels⟩
    else .error ⟨rawLine, idx + 1, .MissingBlankForDevices⟩
  | fuel + 1, .Devices, pools, (idx, rawLine) :: rest =>
    let isTableRow := startsWithStr rawLine "\t"
    let isEmpty := rustTrim rawLine = ""
    if ¬ isTableRow ∨ isEmpty then
      loopFuel ctx fuel .Header pools rest
    else
      match pools.getLast? with
      | none => .error ⟨rawLine, idx + 1, .UnreachablePanic⟩
      | some pool =>
        match DeviceMetrics.from_str rawLine with
        | .error e => .error ⟨rawLine, idx + 1, .DeviceMetrics e⟩
        | .ok device =>
          loopFuel ctx fuel .Devices
            (setLast pools { pool with devices := pool.devices ++ [device] }) rest

/-- AppContext::parse_zfs_metrics (src/zfs.rs): run the section driver over
the enumerated lines of the zpool output. -/
def AppContext.parse_zfs_metrics (ctx : AppContext) (zpool_output : String) :
    Except ParseError (List PoolMetrics) :=
  loopFuel ctx (rustLines zpool_output).length .Header []
    (enumFrom 0 (rustLines zpool_output))

/-- Output value enumeration for DeviceStatus (value_enum! in src/fmt.rs). -/
inductive DeviceStatusValue where
  | UnknownMissing
  | Unrecognized
  | Online
  | Offline
  | Split
  | Degraded
  | Faulted
  | Suspended
  | Removed
  | Unavail
  deriving DecidableEq, Repr

/-- All DeviceStatusValue variants in declaration order (enum_all!). -/
def DeviceStatusValue.ALL : List DeviceStatusValue :=
  [.UnknownMissing, .Unrecognized, .Online, .Offline, .Split, .Degraded,
   .Faulted, .Suspended, .Removed, .Unavail]

/-- Stable wire value of each DeviceStatusValue variant (src/fmt.rs). -/
def DeviceStatusValue.value : DeviceStatusValue → Nat
  | .UnknownMissing => 0
  | .Unrecognized => 1
  | .Online => 10
  | .Offline => 25
  | .Split => 26
  | .Degraded => 50
  | .Faulted => 60
  | .Suspended => 70
  | .Removed => 80
  | .Unavail => 100

/-- From(DeviceStatus) generated by value_enum!. -/
def DeviceStatusValue.ofSource : DeviceStatus → DeviceStatusValue
  | .Unrecognized => .Unrecognized
  | .Online => .Online
  | .Offline => .Offline
  | .Split => .Split
  | .Degraded => .Degraded
  | .Faulted => .Faulted
  | .Suspended => .Suspended
  | .Removed => .Removed
  | .Unavail => .Unavail

/-- from_opt generated by value_enum!: map the option, defaulting to the
zero-valued variant, then take the value. -/
def DeviceStatusValue.from_opt (s : Option DeviceStatus) : Nat :=
  ((s.map DeviceStatusValue.ofSource).getD .UnknownMissing).value

/-- Output value enumeration for PoolStatusDescription (src/fmt.rs); the
zero-valued default variant is named Normal in the source. -/
inductive PoolStatusDescriptionValue where
  | Normal
  | Unrecognized
  | FeaturesAvailable
  | SufficientReplicasForMissing
  | DeviceRemoved
  | DataCorruption
  deriving DecidableEq, Repr

/-- All PoolStatusDescriptionValue variants in declaration order. -/
def PoolStatusDescriptionValue.ALL : List PoolStatusDescriptionValue :=
  [.Normal, .Unrecognized, .FeaturesAvailable, .SufficientReplicasForMissing,
   .DeviceRemoved, .DataCorruption]

/-- Stable wire value of each PoolStatusDescriptionValue variant. -/
def PoolStatusDescriptionValue.value : PoolStatusDescriptionValue → Nat
  | .Normal => 0
  | .Unrecognized => 1
  | .FeaturesAvailable => 5
  | .SufficientReplicasForMissing => 10
  | .DeviceRemoved => 15
  | .DataCorruption => 50

/-- From(PoolStatusDescription) generated by value_enum!. -/
def PoolStatusDescriptionValue.ofSource : PoolStatusDescription → PoolStatusDescriptionValue
  | .Unrecognized => .Unrecognized
  | .FeaturesAvailable => .FeaturesAvailable
  | .SufficientReplicasForMissing => .SufficientReplicasForMissing
  | .DeviceRemoved => .DeviceRemoved
  | .DataCorruption => .DataCorruption

/-- from_opt for PoolStatusDescriptionValue. -/
def PoolStatusDescriptionValue.from_opt (s : Option PoolStatusDescription) : Nat :=
  ((s.map PoolStatusDescriptionValue.ofSource).getD .Normal).value

/-- Output value enumeration for ScanStatus (src/fmt.rs). -/
inductive ScanStatusValue where
  | UnknownMissing
  | Unrecognized
  | ScrubRepaired
  | Resilvered
  | ScrubInProgress
  deriving DecidableEq, Repr

/-- All ScanStatusValue variants in declaration order. -/
def ScanStatusValue.ALL : List ScanStatusValue :=
  [.UnknownMissing, .Unrecognized, .ScrubRepaired, .Resilvered, .ScrubInProgress]

/-- Stable wire value of each ScanStatusValue variant. -/
def ScanStatusValue.value : ScanStatusValue → Nat
  | .UnknownMissing => 0
  | .Unrecognized => 1
  | .ScrubRepaired => 10
  | .Resilvered => 15
  | .ScrubInProgress => 30

/-- From(ScanStatus) generated by value_enum!. -/
def ScanStatusValue.ofSource : ScanStatus → ScanStatusValue
  | .Unrecognized => .Unrecognized
  | .ScrubRepaired => .ScrubRepaired
  | .Resilvered => .Resilvered
  | .ScrubInProgress => .ScrubInProgress

/-- from_opt for ScanStatusValue at the pair type stored in scan_status
(the generated From over tuples projects the first component). -/
def ScanStatusValue.from_opt (s : Option (ScanStatus × ℚ)) : Nat :=
  ((s.map fun p => ScanStatusValue.ofSource p.1).getD .UnknownMissing).value

/-- Output value enumeration for ErrorStatus (src/fmt.rs). -/
inductive ErrorStatusValue where
  | UnknownMissing
  | Unrecognized
  | Ok
  | DataErrors
  deriving DecidableEq, Repr

/-- All ErrorStatusValue variants in declaration order. -/
def ErrorStatusValue.ALL : List ErrorStatusValue :=
  [.UnknownMissing, .Unrecognized, .Ok, .DataErrors]

/-- Stable wire value of each ErrorStatusValue variant. -/
def ErrorStatusValue.value : ErrorStatusValue → Nat
  | .UnknownMissing => 0
  | .Unrecognized => 1
  | .Ok => 10
  | .DataErrors => 50

/-- From(ErrorStatus) generated by value_enum!. -/
def ErrorStatusValue.ofSource : ErrorStatus → ErrorStatusValue
  | .Unrecognized => .Unrecognized
  | .Ok => .Ok
  | .DataErrors => .DataErrors

/-- from_opt for ErrorStatusValue. -/
def ErrorStatusValue.from_opt (s : Option ErrorStatus) : Nat :=
  ((s.map ErrorStatusValue.ofSource).getD .UnknownMissing).value

/-- Pool-wide metric sections of the formatter in emission order
(enum_all! PoolSections in src/fmt.rs). -/
inductive PoolSections where
  | PoolState
  | PoolStatusDescription
  | ScanState
  | ScanAge
  | ErrorState
  deriving DecidableEq, Repr

/-- The numeric value the formatter emits for one pool in one pool-wide
section (the match in FormatPoolMetrics::fmt_pool_sections, src/fmt.rs);
now is the current zoned instant as rational seconds and the f64 time
arithmetic of the source is idealised as exact rational arithmetic. -/
def poolSectionValue (now : ℚ) (sec : PoolSections) (pool : PoolMetrics) : ℚ :=
  match sec with
  | .PoolState => DeviceStatusValue.from_opt pool.state
  | .PoolStatusDescription => PoolStatusDescriptionValue.from_opt pool.pool_status
  | .ScanState => ScanStatusValue.from_opt pool.scan_status
  | .ScanAge =>
    let seconds : ℚ := match pool.scan_status with
      | none => 0
      | some p => now - p.2
    seconds / 3600
  | .ErrorState => ErrorStatusValue.from_opt pool.error

/-- Device metric sections of the formatter in emission order. -/
inductive DeviceSections where
  | State
  | ErrorsRead
  | ErrorsWrite
  | ErrorsChecksum
  deriving DecidableEq, Repr

/-- The numeric value the formatter emits for one device in one device
section (FormatPoolMetrics::fmt_device_sections, src/fmt.rs). -/
def deviceSectionValue (sec : DeviceSections) (device : DeviceMetrics) : Nat :=
  match sec with
  | .State => (DeviceStatusValue.ofSource device.state).value
  | .ErrorsRead => device.errors_read
  | .ErrorsWrite => device.errors_write
  | .ErrorsChecksum => device.errors_checksum

/-- DeviceTreeName::update (src/fmt.rs): depth 0 clears the stack, else
truncate to depth - 1 and push the name. -/
def DeviceTreeName.update (stack : List String) (depth : Nat) (name : String) : List String :=
  match depth with
  | 0 => []
  | d + 1 => stack.take d ++ [name]

/-- Metric type of src/fmt/meta.rs; the only variant is Gauge. -/
inductive MetricType where
  | Gauge
  deriving DecidableEq, Repr

/-- Display for Type in src/fmt/meta.rs: the label written after TYPE. -/
def MetricType.display : MetricType → String
  | .Gauge => "GAUGE"

/-- MetricWrite::write_meta (src/fmt/meta.rs): the HELP line then the TYPE
line for a metric, under the zpool name prefix of src/fmt.rs. -/
def write_meta (metric_name helpText : String) (ty : MetricType) : String :=
  "# HELP zpool_" ++ metric_name ++ " " ++ helpText ++ "\n" ++
  "# TYPE zpool_" ++ metric_name ++ " " ++ ty.display ++ "\n"

/-- Debug name of a DeviceStatusValue variant, as the derived Rust Debug
prints it inside summarize_values. -/
def DeviceStatusValue.debugName : DeviceStatusValue → String
  | .UnknownMissing => "UnknownMissing"
  | .Unrecognized => "Unrecognized"
  | .Online => "Online"
  | .Offline => "Offline"
  | .Split => "Split"
  | .Degraded => "Degraded"
  | .Faulted => "Faulted"
  | .Suspended => "Suspended"
  | .Removed => "Removed"
  | .Unavail => "Unavail"

/-- summarize_values of value_enum! (src/fmt/macros.rs): comma-separated
variant names with their numeric values, in declaration order, shown for
the DeviceStatusValue table used by pool_state and dev_state. -/
def DeviceStatusValue.summarize_values : String :=
  String.intercalate ", "
    (DeviceStatusValue.ALL.map fun v => v.debugName ++ " = " ++ toString v.value)

/-- The full meta block of the pool_state metric: ValuesMetric appends the
value summary to the help text after a colon (src/fmt/meta.rs). -/
def poolStateMeta : String :=
  write_meta "pool_state" ("Pool state" ++ ": " ++ DeviceStatusValue.summarize_values) .Gauge

/-- The meta block of the zpool_lookup metric (src/fmt.rs). -/
def lookupMeta : String :=
  write_meta "lookup" "total duration of the lookup in seconds" .Gauge

/-- An infix of a list is an infix of any right-extension. -/
theorem infix_append_right {α : Type} {a b : List α} (t : List α) (h : a <:+: b) :
    a <:+: b ++ t := by
  obtain ⟨u, v, huv⟩ := h
  exact ⟨u, v ++ t, by rw [← huv]; simp⟩

/-- An infix of a list is an infix of any left-extension. -/
theorem infix_append_left {α : Type} {a b : List α} (p : List α) (h : a <:+: b) :
    a <:+: p ++ b := by
  obtain ⟨u, v, huv⟩ := h
  exact ⟨p ++ u, v, by rw [← huv]; simp⟩

/-- C1: the formatter renders every enumeration field to the stable wire
values of the spec: device/pool state UnknownMissing=0, Unrecognized=1,
Online=10, Offline=25, Split=26, Degraded=50, Faulted=60, Suspended=70,
Removed=80, Unavail=100, with the corresponding tables for pool status
description (0,1,5,10,15,50), scan status (0,1,10,15,30) and error status
(0,1,10,50); every None field renders 0 and every Unrecognized value
renders 1, both for the pool-wide sections and the device state section. -/
theorem c1_stable_wire_values :
    (∀ s : Option DeviceStatus, DeviceStatusValue.from_opt s =
      match s with
      | none => 0
      | some .Unrecognized => 1
      | some .Online => 10
      | some .Offline => 25
      | some .Split => 26
      | some .Degraded => 50
      | some .Faulted => 60
      | some .Suspended => 70
      | some .Removed => 80
      | some .Unavail => 100) ∧
    (∀ s : Option PoolStatusDescription, PoolStatusDescriptionValue.from_opt s =
      match s with
      | none => 0
      | some .Unrecognized => 1
      | some .FeaturesAvailable => 5
      | some .SufficientReplicasForMissing => 10
      | some .DeviceRemoved => 15
      | some .DataCorruption => 50) ∧
    (∀ s : Option (ScanStatus × ℚ), ScanStatusValue.from_opt s =
      match s with
      | none => 0
      | some (.Unrecognized, _) => 1
      | some (.ScrubRepaired, _) => 10
      | some (.Resilvered, _) => 15
      | some (.ScrubInProgress, _) => 30) ∧
    (∀ s : Option ErrorStatus, ErrorStatusValue.from_opt s =
      match s with
      | none => 0
      | some .Unrecognized => 1
      | some .Ok => 10
      | some .DataErrors => 50) ∧
    (∀ (now : ℚ) (pool : PoolMetrics),
      poolSectionValue now .PoolState pool = DeviceStatusValue.from_opt pool.state ∧
      poolSectionValue now .PoolStatusDescription pool =
        PoolStatusDescriptionValue.from_opt pool.pool_status ∧
      poolSectionValue now .ScanState pool = ScanStatusValue.from_opt pool.scan_status ∧
      poolSectionValue now .ErrorState pool = ErrorStatusValue.from_opt pool.error) ∧
    (∀ device : DeviceMetrics,
      deviceSectionValue .State device = (DeviceStatusValue.ofSource device.state).value) := by
  refine ⟨?_, ?_, ?_, ?_, ?_, ?_⟩
  · rintro (_ | v) <;> first | rfl | (cases v <;> rfl)
  · rintro (_ | v) <;> first | rfl | (cases v <;> rfl)
  · rintro (_ | ⟨v, ts⟩) <;> first | rfl | (cases v <;> rfl)
  · rintro (_ | v) <;> first | rfl | (cases v <;> rfl)
  · exact fun now pool => ⟨rfl, rfl, rfl, rfl⟩
  · exact fun device => rfl

/-- C2: for a pool with a recorded scan the formatter emits the scan age
as (now minus the scan timestamp) in seconds divided by 3600, and for a
pool without a scan it emits 0. -/
theorem c2_scan_age_hours (now : ℚ) (pool : PoolMetrics) :
    (∀ st ts, pool.scan_status = some (st, ts) →
      poolSectionValue now .ScanAge pool = (now - ts) / 3600) ∧
    (pool.scan_status = none → poolSectionValue now .ScanAge pool = 0) := by
  constructor
  · intro st ts h
    simp [poolSectionValue, h]
  · intro h
    simp [poolSectionValue, h]

/-- Witness for c2_scan_age_hours: a pool scanned an hour ago reports age 1,
a pool without a scan reports 0. -/
theorem c2_scan_age_hours_witness :
    poolSectionValue 7200 .ScanAge ⟨"tank", none, none, some (.ScrubRepaired, 3600), [], none⟩ = 1 ∧
    poolSectionValue 7200 .ScanAge (PoolMetrics.new "empty") = 0 := by
  constructor
  · have h := (c2_scan_age_hours 7200
      ⟨"tank", none, none, some (.ScrubRepaired, 3600), [], none⟩).1 .ScrubRepaired 3600 rfl
    rw [h]
    norm_num
  · exact (c2_scan_age_hours 7200 (PoolMetrics.new "empty")).2 rfl

/-- C8 (code bug): the meta block of every metric has exactly one HELP and
one TYPE line, and the HELP line of a value-carrying enumeration appends the
variant summary, but the TYPE token is rendered as uppercase GAUGE, not the
lowercase gauge required by the Prometheus exposition format, the spec and
the repository tests. -/
theorem c8_meta_type_token :
    lookupMeta =
      "# HELP zpool_lookup total duration of the lookup in seconds\n# TYPE zpool_lookup GAUGE\n" ∧
    poolStateMeta =
      "# HELP zpool_pool_state Pool state: UnknownMissing = 0, Unrecognized = 1, Online = 10, Offline = 25, Split = 26, Degraded = 50, Faulted = 60, Suspended = 70, Removed = 80, Unavail = 100\n# TYPE zpool_pool_state GAUGE\n" ∧
    MetricType.display .Gauge = "GAUGE" ∧
    MetricType.display .Gauge ≠ "gauge" := by
  refine ⟨rfl, rfl, rfl, by decide⟩

/-- C10: while in the Devices section, a non-blank line that does not begin
with a tab is consumed without touching any pool or device record, without
failing, and without being reparsed: the driver simply continues with the
remaining lines in the Header state. -/
theorem c10_devices_interrupt_consumed (ctx : AppContext) (fuel : Nat)
    (pools : List PoolMetrics) (idx : Nat) (line : String) (rest : List (Nat × String))
    (hnt : startsWithStr line "\t" = false) (hnb : rustTrim line ≠ "") :
    loopFuel ctx (fuel + 1) .Devices pools ((idx, line) :: rest) =
      loopFuel ctx fuel .Header pools rest := by
  simp [loopFuel, hnt, hnb]

/-- Witness for c10_devices_interrupt_consumed: an errors line interrupting
the device table of a one-pool model is skipped and the parse ends cleanly
with the pool unchanged. -/
theorem c10_devices_interrupt_consumed_witness :
    loopFuel ⟨fun _ => none⟩ 1 .Devices [PoolMetrics.new "tank"]
      [(5, "errors: No known data errors")] =
      .ok [PoolMetrics.new "tank"] := by
  have h := c10_devices_interrupt_consumed ⟨fun _ => none⟩ 0 [PoolMetrics.new "tank"]
    5 "errors: No known data errors" [] (by decide) (by decide)
  rw [h]
  rfl

/-- C4 (amended): a second state, status or errors entry for the same pool
always fails with the duplicate-field error; a second scan entry fails with
the duplicate-field error provided its content itself parses (otherwise the
scan-content error wins); action and see lines are accepted any number of
times with no state change. -/
theorem c4_duplicate_header_fields (pool : PoolMetrics) (content : String)
    (ctx : AppContext) :
    (∀ prev, pool.state = some prev →
      pool.add_line_header "state" content ctx =
        .error ⟨"state", content, .DuplicateEntry⟩) ∧
    (∀ prev, pool.pool_status = some prev →
      pool.add_line_header "status" content ctx =
        .error ⟨"status", content, .DuplicateEntry⟩) ∧
    (∀ prev, pool.error = some prev →
      pool.add_line_header "errors" content ctx =
        .error ⟨"errors", content, .DuplicateEntry⟩) ∧
    (∀ prev parsed, pool.scan_status = some prev →
      ctx.parse_scan_content content = .ok parsed →
      pool.add_line_header "scan" content ctx =
        .error ⟨"scan", content, .DuplicateEntry⟩) ∧
    pool.add_line_header "action" content ctx = .ok (pool, none) ∧
    pool.add_line_header "see" content ctx = .ok (pool, none) := by
  refine ⟨?_, ?_, ?_, ?_, rfl, rfl⟩
  · intro prev h
    simp [PoolMetrics.add_line_header, h]
  · intro prev h
    simp [PoolMetrics.add_line_header, h]
  · intro prev h
    simp [PoolMetrics.add_line_header, h]
  · intro prev parsed h hparse
    simp [PoolMetrics.add_line_header, h, hparse]

/-- Witness for c4_duplicate_header_fields: a pool with all fields already
set rejects repeated entries and accepts action and see. -/
theorem c4_duplicate_header_fields_witness :
    (PoolMetrics.mk "t" (some .Online) (some .Unrecognized)
        (some (.ScrubRepaired, 0)) [] (some .Ok)).add_line_header "state" "ONLINE"
        ⟨fun _ => some 0⟩ =
      .error ⟨"state", "ONLINE", .DuplicateEntry⟩ ∧
    (PoolMetrics.mk "t" (some .Online) (some .Unrecognized)
        (some (.ScrubRepaired, 0)) [] (some .Ok)).add_line_header "scan"
        "scrub repaired 0B on X" ⟨fun _ => some 0⟩ =
      .error ⟨"scan", "scrub repaired 0B on X", .DuplicateEntry⟩ := by
  constructor
  · exact (c4_duplicate_header_fields _ "ONLINE" _).1 .Online rfl
  · exact (c4_duplicate_header_fields _ "scrub repaired 0B on X" _).2.2.2.1
      (.ScrubRepaired, 0) (.ScrubRepaired, 0) rfl rfl

/-- Counterexample for C4 as stated: a second scan line whose content lacks
the timestamp separator makes the parse fail with the scan-content error,
not a duplicate-field error. -/
theorem c4_counterexample :
    AppContext.parse_zfs_metrics ⟨fun _ => some 0⟩
      "pool: a\nscan: scrub repaired 0B on D1\nscan: garbage" =
      .error ⟨"scan: garbage", 3,
        .MetricsLineHeader ⟨"scan", "garbage", .ScanContent .MissingTimestampSeparator⟩⟩ ∧
    HeaderErrorKind.ScanContent .MissingTimestampSeparator ≠ HeaderErrorKind.DuplicateEntry := by
  exact ⟨rfl, by decide⟩

/-- A one-element list is a prefix of a cons exactly when the heads agree. -/
theorem isPrefixOf_single (c d : Char) (rest : List Char) :
    [c].isPrefixOf (d :: rest) = (c == d) := by
  simp [List.isPrefixOf]

/-- A single-character split never leaves the separator in the first part. -/
theorem splitOnce_not_mem_first {c : Char} {l a b : List Char}
    (h : splitOnceChars [c] l = some (a, b)) : c ∉ a := by
  induction l generalizing a b with
  | nil => simp [splitOnceChars, List.isPrefixOf] at h
  | cons d rest ih =>
    rw [splitOnceChars, isPrefixOf_single] at h
    by_cases hd : (c == d) = true
    · rw [if_pos hd] at h
      simp only [Option.some.injEq, Prod.mk.injEq] at h
      rw [← h.1]
      simp
    · rw [if_neg (by simp_all)] at h
      match hrec : splitOnceChars [c] rest with
      | some (a', b') =>
        rw [hrec] at h
        simp at h
        obtain ⟨ha, _⟩ := h
        intro hmem
        rw [← ha] at hmem
        rcases List.mem_cons.mp hmem with h1 | h2
        · exact hd (by simp [h1])
        · exact ih hrec h2
      | none => rw [hrec] at h; simp at h

/-- A single-character split fails when the character does not occur. -/
theorem splitOnce_none_of_not_mem {c : Char} {l : List Char} (h : c ∉ l) :
    splitOnceChars [c] l = none := by
  induction l with
  | nil => simp [splitOnceChars, List.isPrefixOf]
  | cons d rest ih =>
    rw [splitOnceChars, isPrefixOf_single]
    have hd : (c == d) = false := by
      simp only [beq_eq_false_iff_ne, ne_eq]
      intro hcd
      exact h (hcd ▸ List.mem_cons_self c rest)
    rw [ih (fun hm => h (List.mem_cons_of_mem d hm))]
    simp [hd]

/-- The first line of a string contains no newline. -/
theorem firstLine_no_newline (s : String) : splitOnceStr (firstLine s) "\n" = none := by
  unfold firstLine
  match h : splitOnceStr s "\n" with
  | none => exact h
  | some (a, b) =>
    simp only
    unfold splitOnceStr at h ⊢
    match hc : splitOnceChars "\n".data s.data with
    | none => rw [hc] at h; simp at h
    | some (a', b') =>
      rw [hc] at h
      simp at h
      rw [← h.1]
      have : '\n' ∉ a' := splitOnce_not_mem_first (by exact hc)
      rw [splitOnce_none_of_not_mem (by simpa using this)]
      rfl

/-- Taking the first line twice is the same as taking it once. -/
theorem firstLine_idem (s : String) : firstLine (firstLine s) = firstLine s := by
  conv_lhs => rw [firstLine]
  rw [firstLine_no_newline]

/-- C7: the scan-content parser uses only the first line of the content,
splits it at the first " on " and otherwise at the first " since ", fails
with the missing-separator error when neither occurs, classifies the text
before the separator, and fails when the timestamp after the separator does
not parse against the context. -/
theorem c7_scan_content_rules (ctx : AppContext) (content : String) :
    (ctx.parse_scan_content content = ctx.parse_scan_content (firstLine content)) ∧
    (splitOnceStr (firstLine content) " on " = none →
      splitOnceStr (firstLine content) " since " = none →
      ctx.parse_scan_content content = .error .MissingTimestampSeparator) ∧
    (∀ m t, splitOnceStr (firstLine content) " on " = some (m, t) →
      (ctx.parse_timestamp t = none →
        ctx.parse_scan_content content = .error (.ParseTimestamp t)) ∧
      (∀ z, ctx.parse_timestamp t = some z →
        ctx.parse_scan_content content = .ok (ScanStatus.fromStr m, z))) ∧
    (∀ m t, splitOnceStr (firstLine content) " on " = none →
      splitOnceStr (firstLine content) " since " = some (m, t) →
      (ctx.parse_timestamp t = none →
        ctx.parse_scan_content content = .error (.ParseTimestamp t)) ∧
      (∀ z, ctx.parse_timestamp t = some z →
        ctx.parse_scan_content content = .ok (ScanStatus.fromStr m, z))) := by
  refine ⟨?_, ?_, ?_, ?_⟩
  · simp only [AppContext.parse_scan_content, firstLine_idem]
  · intro h1 h2
    simp [AppContext.parse_scan_content, h1, h2, Option.orElse]
  · intro m t h1
    constructor
    · intro hts
      simp [AppContext.parse_scan_content, h1, hts, Option.orElse]
    · intro z hts
      simp [AppContext.parse_scan_content, h1, hts, Option.orElse]
  · intro m t h1 h2
    constructor
    · intro hts
      simp [AppContext.parse_scan_content, h1, h2, hts, Option.orElse]
    · intro z hts
      simp [AppContext.parse_scan_content, h1, h2, hts, Option.orElse]

/-- Witness for c7_scan_content_rules: a scrub message splits at " on "
even when " since " also occurs later, extra lines are ignored, and a
missing separator is an error. -/
theorem c7_scan_content_rules_witness :
    AppContext.parse_scan_content ⟨fun t => if t = "D1 since D2" then some 42 else none⟩
      "scrub repaired 0B on D1 since D2\nmore" = .ok (.ScrubRepaired, 42) ∧
    AppContext.parse_scan_content ⟨fun _ => some 0⟩ "garbage" =
      .error .MissingTimestampSeparator := by
  constructor
  · exact ((c7_scan_content_rules ⟨fun t => if t = "D1 since D2" then some 42 else none⟩
      "scrub repaired 0B on D1 since D2\nmore").2.2.1 "scrub repaired 0B" "D1 since D2"
      rfl).2 42 rfl
  · exact (c7_scan_content_rules ⟨fun _ => some 0⟩ "garbage").2.1 rfl rfl

/-- C5 (amended): every successfully parsed device row stores depth equal to
the count of leading spaces after the tab divided by two (integer division),
and the name-stack algorithm renders a label with exactly depth components
provided the row does not skip an indentation level, that is its depth is at
most one more than the current stack length; a depth-skipping row yields
fewer components. -/
theorem c5_depth_and_label :
    (∀ line dm, DeviceMetrics.from_str line = .ok dm →
      ∃ rest, splitOnceStr line "\t" = some ("", rest) ∧
        dm.depth = countLeadingSpaces rest.data / 2) ∧
    (∀ stack depth name, depth ≤ stack.length + 1 →
      (DeviceTreeName.update stack depth name).length = depth) := by
  constructor
  · intro line dm h
    unfold DeviceMetrics.from_str at h
    split at h
    · exact absurd h (by simp)
    next beforeTab rest heq =>
      split at h
      · exact absurd h (by simp)
      next hbt =>
        have hbt' : beforeTab = "" := by simpa using hbt
        subst hbt'
        refine ⟨rest, heq, ?_⟩
        split at h
        · exact absurd h (by simp)
        next nameCs cells =>
          split at h
          · exact absurd h (by simp)
          next stateCs cells =>
            split at h
            · exact absurd h (by simp)
            next readCs cells =>
              split at h
              · exact absurd h (by simp)
              next errors_read hread =>
                split at h
                · exact absurd h (by simp)
                next writeCs cells =>
                  split at h
                  · exact absurd h (by simp)
                  next errors_write hwrite =>
                    split at h
                    · exact absurd h (by simp)
                    next checksumCs cells =>
                      split at h
                      · exact absurd h (by simp)
                      next errors_checksum hchecksum =>
                        simp only [Except.ok.injEq] at h
                        rw [← h]
  · intro stack depth name hle
    match depth with
    | 0 => simp [DeviceTreeName.update]
    | d + 1 =>
      simp only [DeviceTreeName.update, List.length_append, List.length_take,
        List.length_singleton]
      omega

/-- Witness for c5_depth_and_label: a two-space row parses at depth 1 and a
one-step-deeper row keeps the stack length equal to its depth. -/
theorem c5_depth_and_label_witness :
    (∃ rest, splitOnceStr "\t  mirror-0 ONLINE 0 0 0" "\t" = some ("", rest) ∧
      (DeviceMetrics.mk 1 "mirror-0" .Online 0 0 0).depth =
        countLeadingSpaces rest.data / 2) ∧
    (DeviceTreeName.update [] 1 "mirror-0").length = 1 := by
  constructor
  · exact c5_depth_and_label.1 "\t  mirror-0 ONLINE 0 0 0"
      (DeviceMetrics.mk 1 "mirror-0" .Online 0 0 0) rfl
  · exact c5_depth_and_label.2 [] 1 "mirror-0" (by decide)

/-- Counterexample for C5 as stated: the parser accepts a row that skips
from depth 0 to depth 2, and the name stack then renders one component
instead of two. -/
theorem c5_counterexample :
    DeviceMetrics.from_str "\t    sda ONLINE 0 0 0" =
      .ok (DeviceMetrics.mk 2 "sda" .Online 0 0 0) ∧
    DeviceTreeName.update (DeviceTreeName.update [] 0 "tank") 2 "sda" = ["sda"] ∧
    (["sda"] : List String).length ≠ 2 := by
  exact ⟨rfl, rfl, by decide⟩

/-- Mapping the escape over characters that need no escaping is the
identity. -/
theorem escape_flatten_id {l : List Char} (h : ∀ ch ∈ l, escapeDebugChar ch = [ch]) :
    (l.map escapeDebugChar).flatten = l := by
  induction l with
  | nil => rfl
  | cons c rest ih =>
    simp only [List.map_cons, List.flatten_cons]
    rw [h c (List.mem_cons_self c rest), ih (fun ch hm => h ch (List.mem_cons_of_mem c hm))]
    rfl

/-- When no character of a string needs escaping, its Debug rendering is the
string itself between quotes. -/
theorem debugQuote_of_escape_free {s : String}
    (h : ∀ ch ∈ s.data, escapeDebugChar ch = [ch]) :
    (debugQuote s).data = '"' :: s.data ++ ['"'] := by
  unfold debugQuote
  rw [escape_flatten_id h]

set_option maxHeartbeats 3200000 in
/-- C3 (amended): each enumeration mapping is a total function returning
Unrecognized exactly on strings outside its known set, and an Unrecognized
result emits exactly one diagnostic line, consisting of the category name
and the Rust-Debug-quoted raw string; a recognized value emits nothing. The
line therefore always contains the category name, and it contains the raw
string itself whenever no character of the raw string needs Debug escaping
(in particular for every backslash-free printable ASCII string). -/
theorem c3_unrecognized_diagnostics (s : String) :
    ((DeviceStatus.fromStrD s).1 = .Unrecognized ↔
      s ∉ (["ONLINE", "OFFLINE", "SPLIT", "DEGRADED", "FAULTED", "SUSPENDED",
            "REMOVED", "UNAVAIL"] : List String)) ∧
    ((DeviceStatus.fromStrD s).1 = .Unrecognized →
      (DeviceStatus.fromStrD s).2 = ["Unrecognized DeviceStatus: " ++ debugQuote s]) ∧
    ((DeviceStatus.fromStrD s).1 ≠ .Unrecognized → (DeviceStatus.fromStrD s).2 = []) ∧
    ((PoolStatusDescription.fromStrD s).1 = .Unrecognized ↔
      ¬ (startsWithStr s narrativeSufficientReplicas = true ∨
         startsWithStr s narrativeDataCorruption = true ∨
         startsWithStr s narrativeFeaturesAvailable1 = true ∨
         startsWithStr s narrativeFeaturesAvailable2 = true ∨
         startsWithStr s narrativeDeviceRemoved = true)) ∧
    ((PoolStatusDescription.fromStrD s).1 = .Unrecognized →
      (PoolStatusDescription.fromStrD s).2 =
        ["Unrecognized PoolStatusDescription: " ++ debugQuote s]) ∧
    ((PoolStatusDescription.fromStrD s).1 ≠ .Unrecognized →
      (PoolStatusDescription.fromStrD s).2 = []) ∧
    ((ScanStatus.fromStrD s).1 = .Unrecognized ↔
      ¬ (startsWithStr s "scrub repaired" = true ∨
         startsWithStr s "resilvered" = true ∨
         startsWithStr s "scrub in progress" = true)) ∧
    ((ScanStatus.fromStrD s).1 = .Unrecognized →
      (ScanStatus.fromStrD s).2 = ["Unrecognized ScanStatus: " ++ debugQuote s]) ∧
    ((ScanStatus.fromStrD s).1 ≠ .Unrecognized → (ScanStatus.fromStrD s).2 = []) ∧
    ((ErrorStatus.fromStrD s).1 = .Unrecognized ↔
      ¬ (startsWithStr s "No known data errors" = true ∨
         startsWithStr (errorStatusRemainder s) "data errors" = true)) ∧
    ((ErrorStatus.fromStrD s).1 = .Unrecognized →
      (ErrorStatus.fromStrD s).2 = ["Unrecognized ErrorStatus: " ++ debugQuote s]) ∧
    ((ErrorStatus.fromStrD s).1 ≠ .Unrecognized → (ErrorStatus.fromStrD s).2 = []) ∧
    "DeviceStatus".data <:+: ("Unrecognized DeviceStatus: " ++ debugQuote s).data ∧
    "PoolStatusDescription".data <:+:
      ("Unrecognized PoolStatusDescription: " ++ debugQuote s).data ∧
    "ScanStatus".data <:+: ("Unrecognized ScanStatus: " ++ debugQuote s).data ∧
    "ErrorStatus".data <:+: ("Unrecognized ErrorStatus: " ++ debugQuote s).data ∧
    ((∀ ch ∈ s.data, escapeDebugChar ch = [ch]) →
      (s.data <:+: ("Unrecognized DeviceStatus: " ++ debugQuote s).data ∧
       s.data <:+: ("Unrecognized PoolStatusDescription: " ++ debugQuote s).data ∧
       s.data <:+: ("Unrecognized ScanStatus: " ++ debugQuote s).data ∧
       s.data <:+: ("Unrecognized ErrorStatus: " ++ debugQuote s).data)) := by
  have hcontains : ∀ pre : String,
      (∀ ch ∈ s.data, escapeDebugChar ch = [ch]) →
      s.data <:+: (pre ++ debugQuote s).data := by
    intro pre h
    rw [String.data_append, debugQuote_of_escape_free h]
    exact ⟨pre.data ++ ['"'], ['"'], by simp⟩
  have hcat : ∀ cat mid : String, cat.data <:+: mid.data →
      cat.data <:+: (mid ++ debugQuote s).data := by
    intro cat mid h
    rw [String.data_append]
    exact infix_append_right _ h
  refine ⟨?_, ?_, ?_, ?_, ?_, ?_, ?_, ?_, ?_, ?_, ?_, ?_, ?_, ?_, ?_, ?_, ?_⟩
  · unfold DeviceStatus.fromStrD
    split_ifs with h1 h2 h3 h4 h5 h6 h7 h8
    · exact iff_of_false (by decide) (fun hn => hn (by rw [h1]; decide))
    · exact iff_of_false (by decide) (fun hn => hn (by rw [h2]; decide))
    · exact iff_of_false (by decide) (fun hn => hn (by rw [h3]; decide))
    · exact iff_of_false (by decide) (fun hn => hn (by rw [h4]; decide))
    · exact iff_of_false (by decide) (fun hn => hn (by rw [h5]; decide))
    · exact iff_of_false (by decide) (fun hn => hn (by rw [h6]; decide))
    · exact iff_of_false (by decide) (fun hn => hn (by rw [h7]; decide))
    · exact iff_of_false (by decide) (fun hn => hn (by rw [h8]; decide))
    · refine iff_of_true rfl ?_
      intro hmem
      simp only [List.mem_cons, List.not_mem_nil, or_false] at hmem
      rcases hmem with h | h | h | h | h | h | h | h
      · exact h1 h
      · exact h2 h
      · exact h3 h
      · exact h4 h
      · exact h5 h
      · exact h6 h
      · exact h7 h
      · exact h8 h
  · intro h
    unfold DeviceStatus.fromStrD at h ⊢
    split_ifs at h ⊢ <;> first | rfl | exact absurd h (by decide)
  · intro h
    unfold DeviceStatus.fromStrD at h ⊢
    split_ifs at h ⊢ <;> first | rfl | exact absurd rfl h
  · unfold PoolStatusDescription.fromStrD
    split_ifs with h1 h2 h3 h4
    · exact iff_of_false (by decide) (fun hn => hn (Or.inl h1))
    · exact iff_of_false (by decide) (fun hn => hn (Or.inr (Or.inl h2)))
    · rcases Bool.or_eq_true_iff.mp h3 with h | h
      · exact iff_of_false (by decide) (fun hn => hn (Or.inr (Or.inr (Or.inl h))))
      · exact iff_of_false (by decide)
          (fun hn => hn (Or.inr (Or.inr (Or.inr (Or.inl h)))))
    · exact iff_of_false (by decide)
        (fun hn => hn (Or.inr (Or.inr (Or.inr (Or.inr h4)))))
    · refine iff_of_true rfl ?_
      rintro (h | h | h | h | h)
      · exact h1 h
      · exact h2 h
      · exact h3 (by rw [h]; rfl)
      · exact h3 (by rw [h, Bool.or_true])
      · exact h4 h
  · intro h
    unfold PoolStatusDescription.fromStrD at h ⊢
    split_ifs at h ⊢ <;> first | rfl | exact absurd h (by decide)
  · intro h
    unfold PoolStatusDescription.fromStrD at h ⊢
    split_ifs at h ⊢ <;> first | rfl | exact absurd rfl h
  · unfold ScanStatus.fromStrD
    split_ifs with h1 h2 h3
    · exact iff_of_false (by decide) (fun hn => hn (Or.inl h1))
    · exact iff_of_false (by decide) (fun hn => hn (Or.inr (Or.inl h2)))
    · exact iff_of_false (by decide) (fun hn => hn (Or.inr (Or.inr h3)))
    · refine iff_of_true rfl ?_
      rintro (h | h | h)
      · exact h1 h
      · exact h2 h
      · exact h3 h
  · intro h
    unfold ScanStatus.fromStrD at h ⊢
    split_ifs at h ⊢ <;> first | rfl | exact absurd h (by decide)
  · intro h
    unfold ScanStatus.fromStrD at h ⊢
    split_ifs at h ⊢ <;> first | rfl | exact absurd rfl h
  · unfold ErrorStatus.fromStrD
    split_ifs with h1 h2
    · exact iff_of_false (by decide) (fun hn => hn (Or.inl h1))
    · exact iff_of_false (by decide) (fun hn => hn (Or.inr h2))
    · refine iff_of_true rfl ?_
      rintro (h | h)
      · exact h1 h
      · exact h2 h
  · intro h
    unfold ErrorStatus.fromStrD at h ⊢
    split_ifs at h ⊢ <;> first | rfl | exact absurd h (by decide)
  · intro h
    unfold ErrorStatus.fromStrD at h ⊢
    split_ifs at h ⊢ <;> first | rfl | exact absurd rfl h
  · exact hcat _ "Unrecognized DeviceStatus: "
      ⟨"Unrecognized ".data, ": ".data, by decide⟩
  · exact hcat _ "Unrecognized PoolStatusDescription: "
      ⟨"Unrecognized ".data, ": ".data, by decide⟩
  · exact hcat _ "Unrecognized ScanStatus: "
      ⟨"Unrecognized ".data, ": ".data, by decide⟩
  · exact hcat _ "Unrecognized ErrorStatus: "
      ⟨"Unrecognized ".data, ": ".data, by decide⟩
  · intro h
    exact ⟨hcontains _ h, hcontains _ h, hcontains _ h, hcontains _ h⟩

/-- Pushing a run of non-whitespace characters extends the current token. -/
theorem splitWsAux_nonws_append (cur tok rest : List Char)
    (h : ∀ c ∈ tok, isWsChar c = false) :
    splitWsAux cur (tok ++ rest) = splitWsAux (cur ++ tok) rest := by
  induction tok generalizing cur with
  | nil => simp
  | cons c tok ih =>
    rw [List.cons_append, splitWsAux, h c (List.mem_cons_self c tok)]
    simp only [Bool.false_eq_true, if_false]
    rw [ih (cur ++ [c]) (fun d hd => h d (List.mem_cons_of_mem c hd))]
    simp

theorem splitWsAux_tok (tok rest : List Char) (h1 : tok ≠ [])
    (h2 : ∀ c ∈ tok, isWsChar c = false) :
    splitWsAux [] (tok ++ ' ' :: rest) = tok :: splitWsAux [] rest := by
  rw [splitWsAux_nonws_append [] tok (' ' :: rest) h2, List.nil_append, splitWsAux]
  simp [isWsChar, h1]

theorem splitWsAux_last (tok : List Char) (h1 : tok ≠ [])
    (h2 : ∀ c ∈ tok, isWsChar c = false) :
    splitWsAux [] tok = [tok] := by
  have := splitWsAux_nonws_append [] tok [] h2
  rw [List.append_nil] at this
  rw [this, List.nil_append, splitWsAux]
  simp [h1]

theorem digit_not_ws {ch : Char} (h : ch.isDigit = true) : isWsChar ch = false := by
  rcases Bool.eq_false_or_eq_true (isWsChar ch) with ht | hf
  · exfalso
    simp only [isWsChar, Bool.or_eq_true, decide_eq_true_eq] at ht
    rcases ht with ((h1 | h1) | h1) | h1 <;> subst h1 <;> simp at h
  · exact hf

theorem digit_ne_plus {ch : Char} (h : ch.isDigit = true) : ch ≠ '+' := by
  intro hc
  subst hc
  simp at h

theorem stringMk_data (s : String) : String.mk s.data = s := rfl

theorem rustParseU32_overflow {c : String} (hne : c.data ≠ [])
    (hdig : ∀ ch ∈ c.data, ch.isDigit = true)
    (hval : 4294967295 < natOfDigits c.data) :
    rustParseU32 c = none := by
  have hstrip : rustStripPlus c.data = c.data := by
    match hd : c.data with
    | [] => rfl
    | ch :: tl =>
      rw [rustStripPlus]
      rw [if_neg (digit_ne_plus (hdig ch (by rw [hd]; exact List.mem_cons_self ch tl)))]
  unfold rustParseU32
  rw [hstrip, if_neg hne, if_pos (List.all_eq_true.mpr (fun ch hm => hdig ch hm)),
    if_neg (by omega)]

theorem from_str_counts (c1 c2 c3 : List Char)
    (h1 : c1 ≠ []) (h1w : ∀ ch ∈ c1, isWsChar ch = false)
    (h2 : c2 ≠ []) (h2w : ∀ ch ∈ c2, isWsChar ch = false)
    (h3 : c3 ≠ []) (h3w : ∀ ch ∈ c3, isWsChar ch = false) :
    DeviceMetrics.from_str (String.mk ('\t' :: ("sda".data ++ ' ' ::
        ("ONLINE".data ++ ' ' :: (c1 ++ ' ' :: (c2 ++ ' ' :: c3)))))) =
      (match rustParseU32 (String.mk c1) with
       | none => .error ⟨some "sda", .InvalidCount (String.mk c1)⟩
       | some r =>
         match rustParseU32 (String.mk c2) with
         | none => .error ⟨some "sda", .InvalidCount (String.mk c2)⟩
         | some w =>
           match rustParseU32 (String.mk c3) with
           | none => .error ⟨some "sda", .InvalidCount (String.mk c3)⟩
           | some k => .ok ⟨0, "sda", .Online, r, w, k⟩) := by
  have hrest : splitWsAux [] ("sda".data ++ ' ' ::
      ("ONLINE".data ++ ' ' :: (c1 ++ ' ' :: (c2 ++ ' ' :: c3)))) =
      ["sda".data, "ONLINE".data, c1, c2, c3] := by
    rw [splitWsAux_tok "sda".data _ (by decide) (by decide),
      splitWsAux_tok "ONLINE".data _ (by decide) (by decide),
      splitWsAux_tok c1 _ h1 h1w,
      splitWsAux_tok c2 _ h2 h2w,
      splitWsAux_last c3 h3 h3w]
  have hcount : countLeadingSpaces ("sda".data ++ ' ' ::
      ("ONLINE".data ++ ' ' :: (c1 ++ ' ' :: (c2 ++ ' ' :: c3)))) = 0 := by
    rw [show ("sda".data : List Char) = 's' :: 'd' :: 'a' :: [] from rfl]
    rw [List.cons_append, countLeadingSpaces]
    simp
  unfold DeviceMetrics.from_str
  rw [show splitOnceStr (String.mk ('\t' :: ("sda".data ++ ' ' ::
      ("ONLINE".data ++ ' ' :: (c1 ++ ' ' :: (c2 ++ ' ' :: c3)))))) "\t" =
      some ("", String.mk ("sda".data ++ ' ' ::
        ("ONLINE".data ++ ' ' :: (c1 ++ ' ' :: (c2 ++ ' ' :: c3))))) from by
    unfold splitOnceStr
    rw [show ("\t" : String).data = ['\t'] from rfl]
    rw [splitOnceChars, isPrefixOf_single]
    simp]
  simp only [ne_eq, not_true_eq_false, if_false, ite_false, reduceIte]
  have e1 : ("sda".data : List Char) = ['s', 'd', 'a'] := rfl
  have e2 : ("ONLINE".data : List Char) = ['O', 'N', 'L', 'I', 'N', 'E'] := rfl
  rw [e1, e2] at hrest hcount
  rw [hcount, List.drop_zero, hrest]
  rfl

theorem c9_counter_overflow_invalid (c : String) (hne : c.data ≠ [])
    (hdig : ∀ ch ∈ c.data, ch.isDigit = true)
    (hval : 4294967295 < natOfDigits c.data) :
    rustParseU32 c = none ∧
    DeviceMetrics.from_str ("\tsda ONLINE " ++ c ++ " 0 0") =
      .error ⟨some "sda", .InvalidCount c⟩ ∧
    DeviceMetrics.from_str ("\tsda ONLINE 0 " ++ c ++ " 0") =
      .error ⟨some "sda", .InvalidCount c⟩ ∧
    DeviceMetrics.from_str ("\tsda ONLINE 0 0 " ++ c) =
      .error ⟨some "sda", .InvalidCount c⟩ := by
  have hw : ∀ ch ∈ c.data, isWsChar ch = false := fun ch hm => digit_not_ws (hdig ch hm)
  have hnone : rustParseU32 c = none := rustParseU32_overflow hne hdig hval
  have h0ne : (['0'] : List Char) ≠ [] := by decide
  have h0w : ∀ ch ∈ (['0'] : List Char), isWsChar ch = false := by decide
  refine ⟨hnone, ?_, ?_, ?_⟩
  · have hdata : ("\tsda ONLINE " ++ c ++ " 0 0").data =
        '\t' :: ("sda".data ++ ' ' :: ("ONLINE".data ++ ' ' ::
          (c.data ++ ' ' :: (['0'] ++ ' ' :: ['0'])))) := by
      rw [String.data_append, String.data_append]
      rw [show ("\tsda ONLINE " : String).data =
            '\t' :: 's' :: 'd' :: 'a' :: ' ' :: 'O' :: 'N' :: 'L' :: 'I' :: 'N' :: 'E' :: ' ' :: [] from rfl,
          show (" 0 0" : String).data = ' ' :: '0' :: ' ' :: '0' :: [] from rfl]
      simp
    have hline : ("\tsda ONLINE " ++ c ++ " 0 0") =
        String.mk ('\t' :: ("sda".data ++ ' ' :: ("ONLINE".data ++ ' ' ::
          (c.data ++ ' ' :: (['0'] ++ ' ' :: ['0']))))) :=
      (stringMk_data _).symm.trans (congrArg String.mk hdata)
    rw [hline, from_str_counts c.data ['0'] ['0'] hne hw h0ne h0w h0ne h0w]
    rw [stringMk_data, hnone]
  · have hdata : ("\tsda ONLINE 0 " ++ c ++ " 0").data =
        '\t' :: ("sda".data ++ ' ' :: ("ONLINE".data ++ ' ' ::
          (['0'] ++ ' ' :: (c.data ++ ' ' :: ['0'])))) := by
      rw [String.data_append, String.data_append]
      rw [show ("\tsda ONLINE 0 " : String).data =
            '\t' :: 's' :: 'd' :: 'a' :: ' ' :: 'O' :: 'N' :: 'L' :: 'I' :: 'N' :: 'E' :: ' ' :: '0' :: ' ' :: [] from rfl,
          show (" 0" : String).data = ' ' :: '0' :: [] from rfl]
      simp
    have hline : ("\tsda ONLINE 0 " ++ c ++ " 0") =
        String.mk ('\t' :: ("sda".data ++ ' ' :: ("ONLINE".data ++ ' ' ::
          (['0'] ++ ' ' :: (c.data ++ ' ' :: ['0']))))) :=
      (stringMk_data _).symm.trans (congrArg String.mk hdata)
    rw [hline, from_str_counts ['0'] c.data ['0'] h0ne h0w hne hw h0ne h0w]
    rw [show rustParseU32 (String.mk ['0']) = some 0 from rfl]
    rw [stringMk_data, hnone]
  · have hdata : ("\tsda ONLINE 0 0 " ++ c).data =
        '\t' :: ("sda".data ++ ' ' :: ("ONLINE".data ++ ' ' ::
          (['0'] ++ ' ' :: (['0'] ++ ' ' :: c.data)))) := by
      rw [String.data_append]
      rw [show ("\tsda ONLINE 0 0 " : String).data =
            '\t' :: 's' :: 'd' :: 'a' :: ' ' :: 'O' :: 'N' :: 'L' :: 'I' :: 'N' :: 'E' :: ' ' :: '0' :: ' ' :: '0' :: ' ' :: [] from rfl]
      simp
    have hline : ("\tsda ONLINE 0 0 " ++ c) =
        String.mk ('\t' :: ("sda".data ++ ' ' :: ("ONLINE".data ++ ' ' ::
          (['0'] ++ ' ' :: (['0'] ++ ' ' :: c.data))))) :=
      (stringMk_data _).symm.trans (congrArg String.mk hdata)
    rw [hline, from_str_counts ['0'] ['0'] c.data h0ne h0w h0ne h0w hne hw]
    rw [show rustParseU32 (String.mk ['0']) = some 0 from rfl]
    rw [stringMk_data, hnone]

/-- Witness for c9_counter_overflow_invalid: the first value past the u32
range is rejected with the invalid-count error carrying the cell text. -/
theorem c9_counter_overflow_invalid_witness :
    rustParseU32 "4294967296" = none ∧
    DeviceMetrics.from_str ("\tsda ONLINE " ++ "4294967296" ++ " 0 0") =
      .error ⟨some "sda", .InvalidCount "4294967296"⟩ := by
  have h := c9_counter_overflow_invalid "4294967296" (by decide) (by decide) (by decide)
  exact ⟨h.1, h.2.1⟩

/-- Witness for c3_unrecognized_diagnostics: the unknown device token
NOTSURE? maps to Unrecognized with one diagnostic line that contains both
the category name and the raw token. -/
theorem c3_unrecognized_diagnostics_witness :
    (DeviceStatus.fromStrD "NOTSURE?").2 =
      ["Unrecognized DeviceStatus: " ++ debugQuote "NOTSURE?"] ∧
    "NOTSURE?".data <:+:
      ("Unrecognized DeviceStatus: " ++ debugQuote "NOTSURE?").data := by
  obtain ⟨_, h2, _, _, _, _, _, _, _, _, _, _, _, _, _, _, h17⟩ :=
    c3_unrecognized_diagnostics "NOTSURE?"
  exact ⟨h2 (by decide), (h17 (by decide)).1⟩

/-- Counterexample for C3 as stated: for the structurally valid unknown
token holding a backslash the diagnostic line carries the Debug-escaped
rendering, so it does not contain the raw string itself. -/
theorem c3_counterexample :
    (DeviceStatus.fromStrD "a\\b").1 = .Unrecognized ∧
    (DeviceStatus.fromStrD "a\\b").2 = ["Unrecognized DeviceStatus: \"a\\\\b\""] ∧
    ¬ ("a\\b".data <:+: "Unrecognized DeviceStatus: \"a\\\\b\"".data) := by
  refine ⟨by decide, by decide, by decide⟩

theorem collectCont_nil (l : String) : collectCont l [] = (l, []) := rfl

theorem collectCont_cons_no_tab (l : String) (i : Nat) (next : String)
    (rest : List (Nat × String)) (h : startsWithStr next "\t" = false) :
    collectCont l ((i, next) :: rest) = (l, (i, next) :: rest) := by
  simp [collectCont, h]

theorem collectCont_extends (l : String) (r : List (Nat × String)) :
    ∃ t r2, collectCont l r = (String.mk (l.data ++ t), r2) := by
  induction r generalizing l with
  | nil => exact ⟨[], [], by simp [collectCont, stringMk_data]⟩
  | cons p r ih =>
    obtain ⟨i, next⟩ := p
    by_cases h : startsWithStr next "\t" = true
    · rw [collectCont]
      simp only [h, if_true]
      obtain ⟨t, r2, ht⟩ := ih (l ++ "\n" ++ String.mk (next.data.drop 1))
      refine ⟨'\n' :: next.data.drop 1 ++ t, r2, ?_⟩
      rw [ht]
      congr 1
      congr 1
      rw [String.data_append, String.data_append]
      simp
    · rw [collectCont_cons_no_tab _ _ _ _ (by simpa using h)]
      exact ⟨[], (i, next) :: r, by simp [stringMk_data]⟩

theorem splitOnce_single_extend {x : Char} {l a b : List Char} (t : List Char)
    (h : splitOnceChars [x] l = some (a, b)) :
    splitOnceChars [x] (l ++ t) = some (a, b ++ t) := by
  induction l generalizing a b with
  | nil => simp [splitOnceChars, List.isPrefixOf] at h
  | cons d rest ih =>
    rw [splitOnceChars, isPrefixOf_single] at h
    rw [List.cons_append, splitOnceChars, isPrefixOf_single]
    by_cases hd : (x == d) = true
    · rw [if_pos hd] at h
      rw [if_pos hd]
      simp only [Option.some.injEq, Prod.mk.injEq] at h
      simp only [List.length_singleton, List.drop_succ_cons, List.drop_zero] at h ⊢
      rw [← h.1, ← h.2]
    · rw [if_neg hd] at h
      rw [if_neg hd]
      match hrec : splitOnceChars [x] rest with
      | some (a', b') =>
        rw [hrec] at h
        simp only [Option.some.injEq, Prod.mk.injEq] at h
        rw [ih hrec]
        simp [← h.1, ← h.2]
      | none => rw [hrec] at h; simp at h

theorem trimChars_empty_all_ws {cs : List Char} (h : rustTrimChars cs = []) :
    ∀ c ∈ cs, isWsChar c = true := by
  unfold rustTrimChars at h
  have h1 : (cs.dropWhile isWsChar).reverse.dropWhile isWsChar = [] := by
    have := congrArg List.reverse h
    simpa using this
  have h2 : ∀ c ∈ (cs.dropWhile isWsChar).reverse, isWsChar c = true :=
    List.dropWhile_eq_nil_iff.mp h1
  have h3 : ∀ c ∈ cs.dropWhile isWsChar, isWsChar c = true := by
    intro c hm
    exact h2 c (List.mem_reverse.mpr hm)
  intro c hm
  rw [← List.takeWhile_append_dropWhile (p := isWsChar) (l := cs)] at hm
  rcases List.mem_append.mp hm with hm | hm
  · exact List.mem_takeWhile_imp hm
  · exact h3 c hm

theorem trim_empty_no_colon {l : String} (h : rustTrim l = "") :
    splitOnceStr l ":" = none := by
  have hdata : rustTrimChars l.data = [] := by
    have := congrArg String.data h
    simpa [rustTrim] using this
  have hall := trimChars_empty_all_ws hdata
  have hnc : ':' ∉ l.data := by
    intro hm
    have := hall ':' hm
    simp [isWsChar] at this
  unfold splitOnceStr
  rw [show (":" : String).data = [':'] from rfl, splitOnce_none_of_not_mem hnc]
  rfl

theorem splitOnceStr_extend (lab t labelRaw contentRaw : String)
    (hsplit : splitOnceStr lab ":" = some (labelRaw, contentRaw)) :
    splitOnceStr (String.mk (lab.data ++ t.data)) ":" =
      some (labelRaw, String.mk (contentRaw.data ++ t.data)) := by
  unfold splitOnceStr at hsplit ⊢
  rw [show (":" : String).data = [':'] from rfl] at hsplit ⊢
  match hc : splitOnceChars [':'] lab.data with
  | none => rw [hc] at hsplit; simp at hsplit
  | some (a, b) =>
    rw [hc] at hsplit
    simp at hsplit
    obtain ⟨h1, h2⟩ := hsplit
    subst h1
    subst h2
    rw [splitOnce_single_extend t.data hc]
    rfl

theorem loop_header_before_pool (ctx : AppContext) (pre : List String) (lab : String)
    (suff : List String) (n fuel : Nat)
    (hfuel : (pre ++ lab :: suff).length ≤ fuel)
    (hpre : ∀ l ∈ pre, rustTrim l = "" ∨ l = "no pools available")
    (hnt : ∀ l ∈ pre, startsWithStr l "\t" = false)
    (hlabnt : startsWithStr lab "\t" = false)
    (labelRaw contentRaw : String)
    (hsplit : splitOnceStr lab ":" = some (labelRaw, contentRaw))
    (hnotpool : rustTrim labelRaw ≠ "pool") :
    loopFuel ctx fuel .Header [] (enumFrom n (pre ++ lab :: suff)) =
      .error ⟨lab, n + pre.length + 1, .HeaderBeforePool (rustTrim labelRaw)⟩ := by
  induction pre generalizing n fuel with
  | nil =>
    simp only [List.nil_append, enumFrom]
    match fuel with
    | 0 => simp at hfuel
    | f + 1 =>
      simp only [loopFuel]
      obtain ⟨t, r2, hc⟩ := collectCont_extends lab (enumFrom (n + 1) suff)
      rw [hc]
      have hext := splitOnceStr_extend lab (String.mk t) labelRaw contentRaw hsplit
      rw [show (String.mk t : String).data = t from rfl] at hext
      rw [hext]
      simp only [hnotpool, if_false, List.getLast?_nil, ite_false]
      rfl
  | cons p pre ih =>
    match fuel with
    | 0 => simp at hfuel
    | f + 1 =>
      have hcons : enumFrom n ((p :: pre) ++ lab :: suff) =
          (n, p) :: enumFrom (n + 1) (pre ++ lab :: suff) := rfl
      rw [hcons]
      simp only [loopFuel]
      have hnotab : collectCont p (enumFrom (n + 1) (pre ++ lab :: suff)) =
          (p, enumFrom (n + 1) (pre ++ lab :: suff)) := by
        match hp : pre with
        | [] =>
          simp only [List.nil_append, enumFrom]
          exact collectCont_cons_no_tab _ _ _ _ hlabnt
        | q :: qre =>
          simp only [List.cons_append, enumFrom]
          exact collectCont_cons_no_tab _ _ _ _ (hnt q (by simp [hp]))
      rw [hnotab]
      dsimp only
      have hfuel2 : (pre ++ lab :: suff).length ≤ f := by
        simp only [List.cons_append, List.length_cons] at hfuel
        omega
      have ihx := ih n.succ f hfuel2
        (fun l hm => hpre l (List.mem_cons_of_mem p hm))
        (fun l hm => hnt l (List.mem_cons_of_mem p hm))
      have hlen : n.succ + pre.length + 1 = n + (p :: pre).length + 1 := by
        simp [List.length_cons]
        omega
      rw [hlen] at ihx
      rcases hpre p (List.mem_cons_self p pre) with hb | hb
      · rw [trim_empty_no_colon hb]
        simp only [hb, if_true, ite_true]
        exact ihx
      · subst hb
        rw [show splitOnceStr "no pools available" ":" = none from by decide]
        rw [if_neg (by decide)]
        rw [if_pos rfl]
        exact ihx

/-- C6 (amended): when the lines before the first colon-labeled line are all
blank or the no-pools sentinel, none of the lines up to and including the
labeled one begins with a tab (so none is absorbed as a continuation), and
the label is not pool, parsing fails with the header-before-pool error
carrying that line's 1-indexed number, its raw text and the trimmed label,
and no pool record is produced; a failing line (such as an unknown header)
before the labeled line preempts this with its own error. -/
theorem c6_header_before_pool (ctx : AppContext) (input : String)
    (pre : List String) (lab : String) (suff : List String)
    (hls : rustLines input = pre ++ lab :: suff)
    (hpre : ∀ l ∈ pre, rustTrim l = "" ∨ l = "no pools available")
    (hnt : ∀ l ∈ pre, startsWithStr l "\t" = false)
    (hlabnt : startsWithStr lab "\t" = false)
    (labelRaw contentRaw : String)
    (hsplit : splitOnceStr lab ":" = some (labelRaw, contentRaw))
    (hnotpool : rustTrim labelRaw ≠ "pool") :
    ctx.parse_zfs_metrics input =
      .error ⟨lab, pre.length + 1, .HeaderBeforePool (rustTrim labelRaw)⟩ := by
  unfold AppContext.parse_zfs_metrics
  rw [hls]
  rw [loop_header_before_pool ctx pre lab suff 0 (pre ++ lab :: suff).length
    (le_refl _) hpre hnt hlabnt labelRaw contentRaw hsplit hnotpool]
  simp

/-- Witness for c6_header_before_pool: a state line preceded only by a blank
line and the no-pools sentinel fails with HeaderBeforePool at line 3. -/
theorem c6_header_before_pool_witness :
    AppContext.parse_zfs_metrics ⟨fun _ => none⟩ "\nno pools available\nstate: ONLINE" =
      .error ⟨"state: ONLINE", 3, .HeaderBeforePool "state"⟩ := by
  have h := c6_header_before_pool ⟨fun _ => none⟩ "\nno pools available\nstate: ONLINE"
    ["", "no pools available"] "state: ONLINE" [] rfl
    (by decide) (by decide) (by decide) "state" " ONLINE" rfl (by decide)
  exact h

/-- Counterexample for C6 as stated: an unknown header line before the first
labeled line makes the parse fail with UnknownHeader at that earlier line,
not with HeaderBeforePool at the labeled line. -/
theorem c6_counterexample :
    AppContext.parse_zfs_metrics ⟨fun _ => none⟩ "oops\nstate: ONLINE\npool: tank" =
      .error ⟨"oops", 1, .UnknownHeader⟩ ∧
    ParseErrorKind.UnknownHeader ≠ ParseErrorKind.HeaderBeforePool "state" := by
  exact ⟨rfl, by decide⟩
